import Mathlib

/-!
PlatyLogger — a shallow embedding of `src/PlatyLogger.h`.

The C++ `Logger` class is a process-wide singleton: its static members
(`logLevelsToDisplay`, `logLevelsToSave`, `pastLogsToKeep`,
`shouldCreateNewFile`, the session file and the archive directory) are
modelled as one explicit state record `LoggerState`.  File-system effects
are modelled by carrying the session file's lines and the archive
directory's entries inside the state; environment decisions the OS makes
(whether an `fstream::open` succeeds, the creation time stamped onto a
fresh copy, whether a pre-existing copy destination is older than the
source) are an `Env` record passed to each call.
-/

namespace PlatyLogger

/-- The `tm` struct returned by `localtime`, restricted to the fields the
logger reads. -/
structure Tm where
  tm_year : Nat
  tm_mon : Nat
  tm_mday : Nat
  tm_hour : Nat
  tm_min : Nat
  tm_sec : Nat
  deriving DecidableEq

/-- One entry of the archive directory `./logs/past_logs/`: its full path
as yielded by `directory_iterator`, whether it is a regular file, the
creation time `GetFileCreationTime` reports for it (`0` = unresolvable),
and its content as a list of lines. -/
structure FileEntry where
  name : String
  isRegularFile : Bool
  ctime : Nat
  content : List String
  deriving DecidableEq

/-- Environment decisions made by the OS during one logging call. -/
structure Env where
  openOk : Bool
  readOk : Bool
  newCtime : Nat
  destOlder : Bool
  deriving DecidableEq

/-- The static state of the C++ `Logger` class plus the part of the file
system it owns.  `latestLog = none` means `./logs/latest_log.txt` does not
exist; `console` collects the lines printed with `printf`. -/
structure LoggerState where
  logLevelsToDisplay : Nat
  logLevelsToSave : Nat
  pastLogsToKeep : Nat
  shouldCreateNewFile : Bool
  logsDirExists : Bool
  pastLogsDirExists : Bool
  latestLog : Option (List String)
  pastLogs : List FileEntry
  console : List String
  deriving DecidableEq

/-- `LOGLEVEL_NONE` -/
def LOGLEVEL_NONE : Nat := 0
/-- `LOGLEVEL_TRACE = 1` -/
def LOGLEVEL_TRACE : Nat := 1
/-- `LOGLEVEL_INFO = 1 << 1` -/
def LOGLEVEL_INFO : Nat := 2
/-- `LOGLEVEL_DEBUG = 1 << 2` -/
def LOGLEVEL_DEBUG : Nat := 4
/-- `LOGLEVEL_WARNING = 1 << 3` -/
def LOGLEVEL_WARNING : Nat := 8
/-- `LOGLEVEL_ERROR = 1 << 4` -/
def LOGLEVEL_ERROR : Nat := 16
/-- `LOGLEVEL_FATAL = 1 << 5` -/
def LOGLEVEL_FATAL : Nat := 32
/-- `LOGLEVEL_ALL = 63` -/
def LOGLEVEL_ALL : Nat := 63

/-- The six distinct severity bits. -/
def sixLevels : List Nat :=
  [LOGLEVEL_TRACE, LOGLEVEL_INFO, LOGLEVEL_DEBUG,
   LOGLEVEL_WARNING, LOGLEVEL_ERROR, LOGLEVEL_FATAL]

/-- `Logger::latestLogFilepath` -/
def latestLogFilepath : String := "./logs/latest_log.txt"
/-- `Logger::logsFilepath` -/
def logsFilepath : String := "./logs"
/-- `Logger::pastLogsFilepath` -/
def pastLogsFilepath : String := "./logs/past_logs/"

/-- The C locale `isspace` used through `std::remove_if`. -/
def isspace (c : Char) : Bool :=
  c = ' ' || c = '\t' || c = '\n' || c = '\x0b' || c = '\x0c' || c = '\r'

/-- The archive-name derivation of `SaveLatestLog` (lines 209–212):
`erase(0, 10)`, drop whitespace, replace `:` with `-`, wrap as
`log_<result>.txt`. -/
def formatArchiveName (firstLine : String) : String :=
  let s1 := String.mk (firstLine.toList.drop 10)
  let s2 := String.mk (s1.toList.filter (fun c => !(isspace c)))
  let s3 := String.mk (s2.toList.map (fun c => if c = ':' then '-' else c))
  "log_" ++ s3 ++ ".txt"

/-- `GetFileCreationTime`: a path that does not resolve to a file (`none`,
the default-constructed `oldestFile`) yields `0`; otherwise the recorded
creation time (which is itself `0` when the platform cannot resolve it). -/
def GetFileCreationTime : Option FileEntry → Nat
  | none => 0
  | some e => e.ctime

/-- The loop of `GetOldestLog`, with `oldest` the running `oldestFile`:
replace it whenever `GetFileCreationTime(oldestFile) >
GetFileCreationTime(file) || GetFileCreationTime(oldestFile) == 0`. -/
def GetOldestLogGo : Option FileEntry → List FileEntry → Option FileEntry
  | oldest, [] => oldest
  | oldest, f :: rest =>
    if GetFileCreationTime oldest > GetFileCreationTime (some f)
        ∨ GetFileCreationTime oldest = 0 then
      GetOldestLogGo (some f) rest
    else
      GetOldestLogGo oldest rest

/-- `GetOldestLog`: fold over the archive directory starting from the
default-constructed (non-existent) path. -/
def GetOldestLog (dir : List FileEntry) : Option FileEntry :=
  GetOldestLogGo none dir

/-- `CountFiles`: count of regular files in the directory. -/
def CountFiles (dir : List FileEntry) : Nat :=
  (dir.filter (fun e => e.isRegularFile)).length

/-- `CreateLoggingDirectories`: create `./logs` and `./logs/past_logs/`. -/
def CreateLoggingDirectories (st : LoggerState) : LoggerState :=
  { st with logsDirExists := true, pastLogsDirExists := true }

/-- `std::filesystem::copy(src, dest, copy_options::update_existing)`:
if no entry at `dest` exists a fresh regular file with the source's
content is created; if one exists it is overwritten only when it is older
than the source (`destOlder`), and in either case no entry is added or
removed. -/
def copyUpdateExisting (dir : List FileEntry) (src : List String)
    (dest : String) (newCtime : Nat) (destOlder : Bool) : List FileEntry :=
  if dir.any (fun e => e.name == dest) then
    if destOlder then
      dir.map (fun e => if e.name == dest then { e with content := src } else e)
    else
      dir
  else
    dir ++ [⟨dest, true, newCtime, src⟩]

/-- `std::getline(fs, newFilename)` on the freshly opened session file:
its first line, or the untouched empty string when the file is empty. -/
def firstLineOf : Option (List String) → String
  | some (l :: _) => l
  | _ => ""

/-- Lines 179–183 of `SaveLatestLog`: create the logging directories when
the session file is missing. -/
def missingPhase (st : LoggerState) : LoggerState :=
  if st.latestLog.isNone then CreateLoggingDirectories st else st

/-- Lines 185–192 of `SaveLatestLog`: if the archive holds at least
`pastLogsToKeep` regular files, announce and remove `GetOldestLog()`
(removing the default-constructed empty path when the directory is
empty, which changes nothing). -/
def evictPhase (st : LoggerState) : LoggerState :=
  if st.pastLogsToKeep ≤ CountFiles st.pastLogs then
    match GetOldestLog st.pastLogs with
    | some f =>
      { st with
          console := st.console ++
            ["Maximum number of past logs reached, removing: " ++ f.name]
          pastLogs := st.pastLogs.eraseP (fun e => e.name == f.name) }
    | none =>
      { st with
          console := st.console ++
            ["Maximum number of past logs reached, removing: "] }
  else st

/-- Lines 194–216 of `SaveLatestLog`: read the session file's first line
(left empty when the read-open fails), derive the archive name, and copy
the session file there with `copy_options::update_existing`. -/
def archiveCopy (st : LoggerState) (env : Env) : LoggerState :=
  let firstLine := if env.readOk then firstLineOf st.latestLog else ""
  let newFilename := formatArchiveName firstLine
  let newFileLocation := pastLogsFilepath ++ newFilename
  { st with
      pastLogs := copyUpdateExisting st.pastLogs (st.latestLog.getD [])
        newFileLocation env.newCtime env.destOlder }

/-- `SaveLatestLog` (lines 177–217): the three phases in source order. -/
def SaveLatestLog (st : LoggerState) (env : Env) : LoggerState :=
  archiveCopy (evictPhase (missingPhase st)) env

/-- The creation banner `sprintf`ed at lines 153–154:
`Created - <Y>. <M>. <D>. <h>:<m>:<s>` with a trailing blank line. -/
def bannerLine (t : Tm) : String :=
  "Created - " ++ toString (t.tm_year + 1900) ++ ". " ++
    toString (t.tm_mon + 1) ++ ". " ++ toString t.tm_mday ++ ". " ++
    toString t.tm_hour ++ ":" ++ toString t.tm_min ++ ":" ++ toString t.tm_sec

/-- The two lines `fs << creationDate` leaves in the fresh session file. -/
def bannerLines (t : Tm) : List String :=
  [bannerLine t, ""]

/-- Lines 138–141 of `LogToFile`: create the logging directories when
either is missing. -/
def bootPhase (st : LoggerState) : LoggerState :=
  if !st.logsDirExists || !st.pastLogsDirExists then
    CreateLoggingDirectories st
  else st

/-- Lines 144–156 of `LogToFile`: on the first write archive any existing
session file, truncate-open the session file (its content becomes the
banner when the open succeeds, and is untouched when it fails), and flip
`shouldCreateNewFile` to `false`. -/
def freshOpen (st : LoggerState) (t : Tm) (env : Env) : LoggerState :=
  let sta := if st.latestLog.isSome then SaveLatestLog st env else st
  { sta with
      shouldCreateNewFile := false
      latestLog := if env.openOk then some (bannerLines t) else sta.latestLog }

/-- Lines 162–174 of `LogToFile`: if the stream is open append
`header - message`, otherwise `SetLevelsToSave(LOGLEVEL_NONE)` and abort
the write. -/
def writeRecord (st : LoggerState) (header message : String) (env : Env) :
    LoggerState :=
  if env.openOk then
    { st with latestLog := some (st.latestLog.getD [] ++ [header ++ " - " ++ message]) }
  else
    { st with logLevelsToSave := LOGLEVEL_NONE }

/-- `LogToFile` (lines 135–175): bootstrap directories; on the first write
run the fresh-session transition, otherwise append-open; then write the
record (or degrade on open failure). -/
def LogToFile (st0 : LoggerState) (header message : String) (t : Tm)
    (env : Env) : LoggerState :=
  let st1 := bootPhase st0
  let st2 := if st1.shouldCreateNewFile then freshOpen st1 t env else st1
  writeRecord st2 header message env

/-- The header `sprintf`ed at line 123: `[h:m:s] <LevelName>`. -/
def formatHeader (t : Tm) (logLevelStr : String) : String :=
  "[" ++ toString t.tm_hour ++ ":" ++ toString t.tm_min ++ ":" ++
    toString t.tm_sec ++ "] <" ++ logLevelStr ++ ">"

/-- Lines 126–127 of `Log`: `printf("%s - %s\n", header, messageBuffer)`
when the display mask has the level's bit. -/
def consolePhase (st : LoggerState) (logLevel : Nat)
    (header message : String) : LoggerState :=
  if Nat.land st.logLevelsToDisplay logLevel ≠ 0 then
    { st with console := st.console ++ [header ++ " - " ++ message] }
  else st

/-- `Log` (lines 117–133): build the header, print `header - message` when
the display mask has the level's bit, persist via `LogToFile` when the
save mask has it.  The message is the already-formatted payload. -/
def Log (st : LoggerState) (logLevel : Nat) (logLevelStr : String)
    (message : String) (t : Tm) (env : Env) : LoggerState :=
  let header := formatHeader t logLevelStr
  let st1 := consolePhase st logLevel header message
  if Nat.land st1.logLevelsToSave logLevel ≠ 0 then
    LogToFile st1 header message t env
  else st1

/-- `Logger::SetLevelsToDisplay` -/
def SetLevelsToDisplay (st : LoggerState) (logLevels : Nat) : LoggerState :=
  { st with logLevelsToDisplay := logLevels }

/-- `Logger::SetLevelsToSave` -/
def SetLevelsToSave (st : LoggerState) (logLevels : Nat) : LoggerState :=
  { st with logLevelsToSave := logLevels }

/-- `Logger::SetNumberOfFilesToSave` -/
def SetNumberOfFilesToSave (st : LoggerState) (numberToSave : Nat) : LoggerState :=
  { st with pastLogsToKeep := numberToSave }

/-- The static initializers at lines 306–316: both masks `ALL`, retention
5, `shouldCreateNewFile = true`; the on-disk part is whatever the previous
run left behind. -/
def initState (latest : Option (List String)) (past : List FileEntry)
    (logsDir pastDir : Bool) : LoggerState :=
  { logLevelsToDisplay := LOGLEVEL_ALL
    logLevelsToSave := LOGLEVEL_ALL
    pastLogsToKeep := 5
    shouldCreateNewFile := true
    logsDirExists := logsDir
    pastLogsDirExists := pastDir
    latestLog := latest
    pastLogs := past
    console := [] }

/-- One public API call. -/
inductive Op where
  | log (logLevel : Nat) (logLevelStr : String) (message : String) (t : Tm) (env : Env)
  | setDisplay (mask : Nat)
  | setSave (mask : Nat)
  | setKeep (n : Nat)

/-- Interpret one API call on the state. -/
def step (st : LoggerState) : Op → LoggerState
  | .log lv name msg t env => Log st lv name msg t env
  | .setDisplay m => SetLevelsToDisplay st m
  | .setSave m => SetLevelsToSave st m
  | .setKeep n => SetNumberOfFilesToSave st n

/-- Run a sequence of API calls (the mutex serialises them). -/
def run (st : LoggerState) : List Op → LoggerState
  | [] => st
  | op :: ops => run (step st op) ops

/-- The open-success flag of an operation's environment (`true` for
setter calls, which touch no file). -/
def Op.allOpen : Op → Bool
  | .log _ _ _ _ env => env.openOk
  | _ => true

/-- A line of the shape `LogToFile` writes for one record:
`[h:m:s] <LevelName> - message`. -/
def isRecordLine (l : String) : Prop :=
  ∃ t name msg, l = formatHeader t name ++ " - " ++ msg

/-- The session-file shape: the creation banner, a blank line, then one
line per record. -/
def goodSession (latest : Option (List String)) : Prop :=
  ∃ t records, latest = some (bannerLines t ++ records) ∧
    ∀ r ∈ records, isRecordLine r

/-- A concrete mid-session state used by the witnesses. -/
def wSt : LoggerState :=
  { logLevelsToDisplay := 63
    logLevelsToSave := 63
    pastLogsToKeep := 5
    shouldCreateNewFile := false
    logsDirExists := true
    pastLogsDirExists := true
    latestLog := some ["Created - 2024. 1. 5. 10:30:0", ""]
    pastLogs := []
    console := [] }

/-- A concrete fresh-start state used by the witnesses. -/
def wStFresh : LoggerState := { wSt with shouldCreateNewFile := true }

/-- `2024-01-05 10:30:00` as a `tm`. -/
def wTm : Tm := ⟨124, 0, 5, 10, 30, 0⟩

/-- An environment where every file operation succeeds. -/
def wEnvOpen : Env := ⟨true, true, 7, false⟩

/-- An environment where the session file cannot be opened for writing. -/
def wEnvClosed : Env := ⟨false, true, 7, false⟩

/-- An archive entry with an unresolvable (zero) creation time. -/
def zeroEntry : FileEntry := ⟨"./logs/past_logs/zero.txt", true, 0, []⟩

/-- An archive entry with creation time 100. -/
def newerEntry : FileEntry := ⟨"./logs/past_logs/newer.txt", true, 100, []⟩

/-- An archive entry of the given path and creation time. -/
def mkEntry (n : String) (c : Nat) : FileEntry := ⟨n, true, c, []⟩

/-- Seven regular archive files, creation times 1..7. -/
def sevenDir : List FileEntry :=
  [mkEntry "./logs/past_logs/a.txt" 1, mkEntry "./logs/past_logs/b.txt" 2,
   mkEntry "./logs/past_logs/c.txt" 3, mkEntry "./logs/past_logs/d.txt" 4,
   mkEntry "./logs/past_logs/e.txt" 5, mkEntry "./logs/past_logs/f.txt" 6,
   mkEntry "./logs/past_logs/g.txt" 7]

/-- A state whose archive directory is over the retention limit: 7 regular
files with `pastLogsToKeep = 5`. -/
def overfullState : LoggerState :=
  { logLevelsToDisplay := 63
    logLevelsToSave := 63
    pastLogsToKeep := 5
    shouldCreateNewFile := true
    logsDirExists := true
    pastLogsDirExists := true
    latestLog := some ["Created - 2024. 1. 5. 10:30:0", ""]
    pastLogs := sevenDir
    console := [] }

/-- A one-call trace used by the witnesses. -/
def wOps : List Op := [Op.log 1 "Trace" "hi" wTm wEnvOpen]

/-- Five regular archive files, creation times 1..5. -/
def fiveDir : List FileEntry :=
  [mkEntry "./logs/past_logs/a.txt" 1, mkEntry "./logs/past_logs/b.txt" 2,
   mkEntry "./logs/past_logs/c.txt" 3, mkEntry "./logs/past_logs/d.txt" 4,
   mkEntry "./logs/past_logs/e.txt" 5]

/-- A state whose archive directory is exactly at the retention limit. -/
def fullState : LoggerState := { overfullState with pastLogs := fiveDir }

/-! ## Helper lemmas on the phases -/

theorem bootPhase_fields (st : LoggerState) :
    (bootPhase st).latestLog = st.latestLog ∧
    (bootPhase st).pastLogs = st.pastLogs ∧
    (bootPhase st).console = st.console ∧
    (bootPhase st).shouldCreateNewFile = st.shouldCreateNewFile ∧
    (bootPhase st).logLevelsToDisplay = st.logLevelsToDisplay ∧
    (bootPhase st).logLevelsToSave = st.logLevelsToSave ∧
    (bootPhase st).pastLogsToKeep = st.pastLogsToKeep := by
  unfold bootPhase CreateLoggingDirectories
  split <;> exact ⟨rfl, rfl, rfl, rfl, rfl, rfl, rfl⟩

theorem missingPhase_fields (st : LoggerState) :
    (missingPhase st).latestLog = st.latestLog ∧
    (missingPhase st).pastLogs = st.pastLogs ∧
    (missingPhase st).console = st.console ∧
    (missingPhase st).shouldCreateNewFile = st.shouldCreateNewFile ∧
    (missingPhase st).logLevelsToDisplay = st.logLevelsToDisplay ∧
    (missingPhase st).logLevelsToSave = st.logLevelsToSave ∧
    (missingPhase st).pastLogsToKeep = st.pastLogsToKeep := by
  unfold missingPhase CreateLoggingDirectories
  split <;> exact ⟨rfl, rfl, rfl, rfl, rfl, rfl, rfl⟩

theorem evictPhase_fields (st : LoggerState) :
    (evictPhase st).latestLog = st.latestLog ∧
    (evictPhase st).shouldCreateNewFile = st.shouldCreateNewFile ∧
    (evictPhase st).logLevelsToDisplay = st.logLevelsToDisplay ∧
    (evictPhase st).logLevelsToSave = st.logLevelsToSave ∧
    (evictPhase st).pastLogsToKeep = st.pastLogsToKeep := by
  unfold evictPhase
  split
  case isTrue => split <;> exact ⟨rfl, rfl, rfl, rfl, rfl⟩
  case isFalse => exact ⟨rfl, rfl, rfl, rfl, rfl⟩

theorem archiveCopy_fields (st : LoggerState) (env : Env) :
    (archiveCopy st env).latestLog = st.latestLog ∧
    (archiveCopy st env).console = st.console ∧
    (archiveCopy st env).shouldCreateNewFile = st.shouldCreateNewFile ∧
    (archiveCopy st env).logLevelsToDisplay = st.logLevelsToDisplay ∧
    (archiveCopy st env).logLevelsToSave = st.logLevelsToSave ∧
    (archiveCopy st env).pastLogsToKeep = st.pastLogsToKeep :=
  ⟨rfl, rfl, rfl, rfl, rfl, rfl⟩

theorem saveLatestLog_fields (st : LoggerState) (env : Env) :
    (SaveLatestLog st env).latestLog = st.latestLog ∧
    (SaveLatestLog st env).shouldCreateNewFile = st.shouldCreateNewFile ∧
    (SaveLatestLog st env).logLevelsToDisplay = st.logLevelsToDisplay ∧
    (SaveLatestLog st env).logLevelsToSave = st.logLevelsToSave ∧
    (SaveLatestLog st env).pastLogsToKeep = st.pastLogsToKeep := by
  unfold SaveLatestLog
  obtain ⟨m1, _, _, m4, m5, m6, m7⟩ := missingPhase_fields st
  obtain ⟨e1, e2, e3, e4, e5⟩ := evictPhase_fields (missingPhase st)
  obtain ⟨a1, _, a3, a4, a5, a6⟩ := archiveCopy_fields (evictPhase (missingPhase st)) env
  exact ⟨by rw [a1, e1, m1], by rw [a3, e2, m4], by rw [a4, e3, m5],
    by rw [a5, e4, m6], by rw [a6, e5, m7]⟩

theorem freshOpen_fields (st : LoggerState) (t : Tm) (env : Env) :
    (freshOpen st t env).shouldCreateNewFile = false ∧
    (freshOpen st t env).logLevelsToDisplay = st.logLevelsToDisplay ∧
    (freshOpen st t env).logLevelsToSave = st.logLevelsToSave ∧
    (freshOpen st t env).pastLogsToKeep = st.pastLogsToKeep := by
  unfold freshOpen
  split
  case isTrue h =>
    exact ⟨rfl, (saveLatestLog_fields st env).2.2.1,
      (saveLatestLog_fields st env).2.2.2.1, (saveLatestLog_fields st env).2.2.2.2⟩
  case isFalse h =>
    exact ⟨rfl, rfl, rfl, rfl⟩

theorem freshOpen_latestLog (st : LoggerState) (t : Tm) (env : Env)
    (h : env.openOk = true) :
    (freshOpen st t env).latestLog = some (bannerLines t) := by
  unfold freshOpen
  simp [h]

theorem writeRecord_open (st : LoggerState) (header message : String)
    (env : Env) (h : env.openOk = true) :
    writeRecord st header message env =
      { st with latestLog := some (st.latestLog.getD [] ++ [header ++ " - " ++ message]) } := by
  unfold writeRecord
  simp [h]

theorem writeRecord_closed (st : LoggerState) (header message : String)
    (env : Env) (h : env.openOk = false) :
    writeRecord st header message env = { st with logLevelsToSave := LOGLEVEL_NONE } := by
  unfold writeRecord
  simp [h]

theorem writeRecord_fields (st : LoggerState) (header message : String)
    (env : Env) :
    (writeRecord st header message env).shouldCreateNewFile = st.shouldCreateNewFile ∧
    (writeRecord st header message env).console = st.console ∧
    (writeRecord st header message env).pastLogs = st.pastLogs ∧
    (writeRecord st header message env).logLevelsToDisplay = st.logLevelsToDisplay ∧
    (writeRecord st header message env).pastLogsToKeep = st.pastLogsToKeep := by
  unfold writeRecord
  split <;> exact ⟨rfl, rfl, rfl, rfl, rfl⟩

theorem logToFile_flag (st : LoggerState) (header message : String) (t : Tm)
    (env : Env) : (LogToFile st header message t env).shouldCreateNewFile = false := by
  unfold LogToFile
  dsimp only
  rw [(writeRecord_fields _ header message env).1]
  split
  case isTrue h => exact (freshOpen_fields _ t env).1
  case isFalse h => simpa using h

theorem logToFile_active (st : LoggerState) (header message : String)
    (t : Tm) (env : Env) (hAct : st.shouldCreateNewFile = false)
    (hOpen : env.openOk = true) :
    (LogToFile st header message t env).latestLog =
        some (st.latestLog.getD [] ++ [header ++ " - " ++ message]) ∧
    (LogToFile st header message t env).console = st.console ∧
    (LogToFile st header message t env).pastLogs = st.pastLogs ∧
    (LogToFile st header message t env).logLevelsToDisplay = st.logLevelsToDisplay ∧
    (LogToFile st header message t env).logLevelsToSave = st.logLevelsToSave := by
  unfold LogToFile
  dsimp only
  obtain ⟨h1, h2, h3, h4, h5, h6, h7⟩ := bootPhase_fields st
  rw [if_neg (by rw [h4, hAct]; exact Bool.false_ne_true)]
  rw [writeRecord_open _ _ _ _ hOpen]
  exact ⟨by rw [h1], h3, h2, h5, h6⟩

theorem consolePhase_latestLog (st : LoggerState) (L : Nat) (h m : String) :
    (consolePhase st L h m).latestLog = st.latestLog := by
  unfold consolePhase; split <;> rfl

theorem consolePhase_pastLogs (st : LoggerState) (L : Nat) (h m : String) :
    (consolePhase st L h m).pastLogs = st.pastLogs := by
  unfold consolePhase; split <;> rfl

theorem consolePhase_flag (st : LoggerState) (L : Nat) (h m : String) :
    (consolePhase st L h m).shouldCreateNewFile = st.shouldCreateNewFile := by
  unfold consolePhase; split <;> rfl

theorem consolePhase_display (st : LoggerState) (L : Nat) (h m : String) :
    (consolePhase st L h m).logLevelsToDisplay = st.logLevelsToDisplay := by
  unfold consolePhase; split <;> rfl

theorem consolePhase_save (st : LoggerState) (L : Nat) (h m : String) :
    (consolePhase st L h m).logLevelsToSave = st.logLevelsToSave := by
  unfold consolePhase; split <;> rfl

theorem consolePhase_keep (st : LoggerState) (L : Nat) (h m : String) :
    (consolePhase st L h m).pastLogsToKeep = st.pastLogsToKeep := by
  unfold consolePhase; split <;> rfl

theorem consolePhase_console_pos (st : LoggerState) (L : Nat) (h m : String)
    (hd : Nat.land st.logLevelsToDisplay L ≠ 0) :
    (consolePhase st L h m).console = st.console ++ [h ++ " - " ++ m] := by
  unfold consolePhase; rw [if_pos hd]

theorem consolePhase_console_neg (st : LoggerState) (L : Nat) (h m : String)
    (hd : ¬Nat.land st.logLevelsToDisplay L ≠ 0) :
    (consolePhase st L h m).console = st.console := by
  unfold consolePhase; rw [if_neg hd]

theorem log_persist_pos (st : LoggerState) (L : Nat) (name msg : String)
    (t : Tm) (env : Env) (hs : Nat.land st.logLevelsToSave L ≠ 0) :
    Log st L name msg t env =
      LogToFile (consolePhase st L (formatHeader t name) msg)
        (formatHeader t name) msg t env := by
  unfold Log
  dsimp only
  simp only [consolePhase_save]
  rw [if_pos hs]

theorem log_persist_neg (st : LoggerState) (L : Nat) (name msg : String)
    (t : Tm) (env : Env) (hs : ¬Nat.land st.logLevelsToSave L ≠ 0) :
    Log st L name msg t env = consolePhase st L (formatHeader t name) msg := by
  unfold Log
  dsimp only
  simp only [consolePhase_save]
  rw [if_neg hs]

theorem console_ne_append (l : List String) (x : String) : l ≠ l ++ [x] := by
  simp

theorem latest_ne_append (o : Option (List String)) (x : String) :
    o ≠ some (o.getD [] ++ [x]) := by
  cases o <;> simp

theorem land_all_ne_zero (L : Nat) (hL : L ∈ sixLevels) :
    Nat.land LOGLEVEL_ALL L ≠ 0 := by
  simp only [sixLevels, LOGLEVEL_TRACE, LOGLEVEL_INFO, LOGLEVEL_DEBUG,
    LOGLEVEL_WARNING, LOGLEVEL_ERROR, LOGLEVEL_FATAL, List.mem_cons,
    List.not_mem_nil, or_false] at hL
  rcases hL with rfl | rfl | rfl | rfl | rfl | rfl <;> decide

theorem logToFile_closed (st : LoggerState) (header message : String)
    (t : Tm) (env : Env) (hAct : st.shouldCreateNewFile = false)
    (hOpen : env.openOk = false) :
    (LogToFile st header message t env).logLevelsToSave = LOGLEVEL_NONE ∧
    (LogToFile st header message t env).latestLog = st.latestLog ∧
    (LogToFile st header message t env).console = st.console ∧
    (LogToFile st header message t env).logLevelsToDisplay = st.logLevelsToDisplay := by
  unfold LogToFile
  dsimp only
  obtain ⟨h1, h2, h3, h4, h5, h6, h7⟩ := bootPhase_fields st
  rw [if_neg (by rw [h4, hAct]; exact Bool.false_ne_true)]
  rw [writeRecord_closed _ _ _ _ hOpen]
  exact ⟨rfl, h1, h3, h5⟩

theorem log_console_only (s : LoggerState) (L2 : Nat) (n2 m2 : String)
    (t2 : Tm) (env2 : Env) (hsave : s.logLevelsToSave = LOGLEVEL_NONE)
    (hdisp : Nat.land s.logLevelsToDisplay L2 ≠ 0) :
    Log s L2 n2 m2 t2 env2 =
      { s with console := s.console ++ [formatHeader t2 n2 ++ " - " ++ m2] } := by
  rw [log_persist_neg s L2 n2 m2 t2 env2
    (fun h => h (by rw [hsave]; exact Nat.zero_and L2))]
  unfold consolePhase
  rw [if_pos hdisp]

/-! ## The claims -/

/-- C5: for every severity level `L` among the six bits and every pair of
masks, a mid-session log call with a writable file emits the record line
to the console iff `displayMask & L ≠ 0`, and appends it to the session
file iff `persistMask & L ≠ 0`; the two decisions are independent (each
iff holds whatever the other mask says). -/
theorem log_mask_filtering (st : LoggerState) (L : Nat) (name msg : String)
    (t : Tm) (env : Env) (_hL : L ∈ sixLevels)
    (hAct : st.shouldCreateNewFile = false) (hOpen : env.openOk = true) :
    ((Log st L name msg t env).console =
        st.console ++ [formatHeader t name ++ " - " ++ msg] ↔
      Nat.land st.logLevelsToDisplay L ≠ 0) ∧
    ((Log st L name msg t env).latestLog =
        some (st.latestLog.getD [] ++ [formatHeader t name ++ " - " ++ msg]) ↔
      Nat.land st.logLevelsToSave L ≠ 0) := by
  by_cases hs : Nat.land st.logLevelsToSave L ≠ 0
  · rw [log_persist_pos st L name msg t env hs]
    obtain ⟨w1, w2, _, _, _⟩ :=
      logToFile_active (consolePhase st L (formatHeader t name) msg)
        (formatHeader t name) msg t env (by rw [consolePhase_flag, hAct]) hOpen
    rw [w1, w2, consolePhase_latestLog]
    refine ⟨?_, iff_of_true rfl hs⟩
    by_cases hd : Nat.land st.logLevelsToDisplay L ≠ 0
    · exact iff_of_true (consolePhase_console_pos st L _ msg hd) hd
    · refine iff_of_false ?_ hd
      rw [consolePhase_console_neg st L _ msg hd]
      exact console_ne_append _ _
  · rw [log_persist_neg st L name msg t env hs]
    constructor
    · by_cases hd : Nat.land st.logLevelsToDisplay L ≠ 0
      · exact iff_of_true (consolePhase_console_pos st L _ msg hd) hd
      · refine iff_of_false ?_ hd
        rw [consolePhase_console_neg st L _ msg hd]
        exact console_ne_append _ _
    · refine iff_of_false ?_ hs
      rw [consolePhase_latestLog]
      exact latest_ne_append _ _

/-- C5 witness: the theorem at a concrete state and level. -/
theorem log_mask_filtering_witness :
    ((Log wSt 1 "Trace" "m" wTm wEnvOpen).console =
        wSt.console ++ [formatHeader wTm "Trace" ++ " - " ++ "m"] ↔
      Nat.land wSt.logLevelsToDisplay 1 ≠ 0) ∧
    ((Log wSt 1 "Trace" "m" wTm wEnvOpen).latestLog =
        some (wSt.latestLog.getD [] ++ [formatHeader wTm "Trace" ++ " - " ++ "m"]) ↔
      Nat.land wSt.logLevelsToSave 1 ≠ 0) :=
  log_mask_filtering wSt 1 "Trace" "m" wTm wEnvOpen (by decide) rfl rfl

/-- C8: with `displayMask = NONE` and `persistMask = ALL`, a mid-session
log call with a writable file prints nothing to the console and appends
exactly one line to the session file. -/
theorem display_none_persist_all (st : LoggerState) (L : Nat)
    (name msg : String) (t : Tm) (env : Env) (hL : L ∈ sixLevels)
    (hd : st.logLevelsToDisplay = LOGLEVEL_NONE)
    (hs : st.logLevelsToSave = LOGLEVEL_ALL)
    (hAct : st.shouldCreateNewFile = false) (hOpen : env.openOk = true) :
    (Log st L name msg t env).console = st.console ∧
    (Log st L name msg t env).latestLog =
      some (st.latestLog.getD [] ++ [formatHeader t name ++ " - " ++ msg]) := by
  have hdz : Nat.land st.logLevelsToDisplay L = 0 := by
    rw [hd]; exact Nat.zero_and L
  have hsz : Nat.land st.logLevelsToSave L ≠ 0 := by
    rw [hs]; exact land_all_ne_zero L hL
  rw [log_persist_pos st L name msg t env hsz]
  obtain ⟨w1, w2, _, _, _⟩ :=
    logToFile_active (consolePhase st L (formatHeader t name) msg)
      (formatHeader t name) msg t env (by rw [consolePhase_flag, hAct]) hOpen
  rw [w1, w2, consolePhase_latestLog,
    consolePhase_console_neg st L _ msg (fun h => h hdz)]
  exact ⟨rfl, rfl⟩

/-- C8 witness: the theorem at a concrete state. -/
theorem display_none_persist_all_witness :
    (Log { wSt with logLevelsToDisplay := 0 } 4 "Debug" "m" wTm wEnvOpen).console =
        { wSt with logLevelsToDisplay := 0 }.console ∧
    (Log { wSt with logLevelsToDisplay := 0 } 4 "Debug" "m" wTm wEnvOpen).latestLog =
      some ({ wSt with logLevelsToDisplay := 0 }.latestLog.getD [] ++
        [formatHeader wTm "Debug" ++ " - " ++ "m"]) :=
  display_none_persist_all { wSt with logLevelsToDisplay := 0 } 4 "Debug" "m"
    wTm wEnvOpen (by decide) rfl rfl rfl rfl

/-- C3: when a mid-session write cannot open the session file, the call
sets the persist mask to `NONE`, leaves the session file untouched
(aborting that single write), and any later call whose level is
display-enabled still prints to the console while persisting nothing. -/
theorem open_failure_degrades (st : LoggerState) (L : Nat)
    (name msg : String) (t : Tm) (env : Env)
    (hAct : st.shouldCreateNewFile = false) (hOpen : env.openOk = false)
    (hSave : Nat.land st.logLevelsToSave L ≠ 0) :
    (Log st L name msg t env).logLevelsToSave = LOGLEVEL_NONE ∧
    (Log st L name msg t env).latestLog = st.latestLog ∧
    (∀ L2 n2 m2 t2 env2,
      Nat.land (Log st L name msg t env).logLevelsToDisplay L2 ≠ 0 →
      (Log (Log st L name msg t env) L2 n2 m2 t2 env2).console =
          (Log st L name msg t env).console ++
            [formatHeader t2 n2 ++ " - " ++ m2] ∧
      (Log (Log st L name msg t env) L2 n2 m2 t2 env2).latestLog =
          (Log st L name msg t env).latestLog) := by
  have key : (Log st L name msg t env).logLevelsToSave = LOGLEVEL_NONE ∧
      (Log st L name msg t env).latestLog = st.latestLog := by
    rw [log_persist_pos st L name msg t env hSave]
    obtain ⟨k1, k2, _, _⟩ :=
      logToFile_closed (consolePhase st L (formatHeader t name) msg)
        (formatHeader t name) msg t env (by rw [consolePhase_flag, hAct]) hOpen
    rw [k1, k2, consolePhase_latestLog]
    exact ⟨rfl, rfl⟩
  refine ⟨key.1, key.2, ?_⟩
  intro L2 n2 m2 t2 env2 hdisp2
  rw [log_console_only _ _ _ _ _ _ key.1 hdisp2]
  exact ⟨rfl, rfl⟩

/-- C3 witness: the theorem at a concrete state with a failing open. -/
theorem open_failure_degrades_witness :
    (Log wSt 1 "Trace" "m" wTm wEnvClosed).logLevelsToSave = LOGLEVEL_NONE ∧
    (Log wSt 1 "Trace" "m" wTm wEnvClosed).latestLog = wSt.latestLog ∧
    (∀ L2 n2 m2 t2 env2,
      Nat.land (Log wSt 1 "Trace" "m" wTm wEnvClosed).logLevelsToDisplay L2 ≠ 0 →
      (Log (Log wSt 1 "Trace" "m" wTm wEnvClosed) L2 n2 m2 t2 env2).console =
          (Log wSt 1 "Trace" "m" wTm wEnvClosed).console ++
            [formatHeader t2 n2 ++ " - " ++ m2] ∧
      (Log (Log wSt 1 "Trace" "m" wTm wEnvClosed) L2 n2 m2 t2 env2).latestLog =
          (Log wSt 1 "Trace" "m" wTm wEnvClosed).latestLog) :=
  open_failure_degrades wSt 1 "Trace" "m" wTm wEnvClosed rfl rfl (by decide)

theorem copyUpdateExisting_fresh (dir : List FileEntry) (src : List String)
    (dest : String) (ct : Nat) (older : Bool)
    (hfr : ∀ e ∈ dir, e.name ≠ dest) :
    copyUpdateExisting dir src dest ct older = dir ++ [⟨dest, true, ct, src⟩] := by
  unfold copyUpdateExisting
  rw [if_neg]
  simp only [List.any_eq_true, beq_iff_eq, not_exists]
  rintro e ⟨he, rfl⟩
  exact hfr e he rfl

theorem logToFile_fresh (st : LoggerState) (header message : String)
    (t : Tm) (env : Env) (hFlag : st.shouldCreateNewFile = true)
    (hOpen : env.openOk = true) :
    (LogToFile st header message t env).latestLog =
      some (bannerLines t ++ [header ++ " - " ++ message]) := by
  unfold LogToFile
  dsimp only
  rw [if_pos (by rw [(bootPhase_fields st).2.2.2.1]; exact hFlag)]
  rw [writeRecord_open _ _ _ _ hOpen]
  dsimp only
  rw [freshOpen_latestLog _ t env hOpen]
  rfl

theorem log_flag_false (st : LoggerState) (L : Nat) (name msg : String)
    (t : Tm) (env : Env) (h : st.shouldCreateNewFile = false) :
    (Log st L name msg t env).shouldCreateNewFile = false := by
  by_cases hs : Nat.land st.logLevelsToSave L ≠ 0
  · rw [log_persist_pos st L name msg t env hs]
    exact logToFile_flag _ _ _ _ _
  · rw [log_persist_neg st L name msg t env hs]
    rw [consolePhase_flag]
    exact h

theorem run_flag_false (st : LoggerState) (ops : List Op)
    (h : st.shouldCreateNewFile = false) :
    (run st ops).shouldCreateNewFile = false := by
  induction ops generalizing st with
  | nil => exact h
  | cons op ops ih =>
    cases op with
    | log lv n m t env => exact ih _ (log_flag_false st lv n m t env h)
    | setDisplay m => exact ih _ h
    | setSave m => exact ih _ h
    | setKeep n => exact ih _ h

/-- C6: the rotation flag is `true` at process start; every `LogToFile`
call leaves it `false` (so the first file write flips it), a successful
first write truncates the session file to the banner plus the new record,
no later operation ever sets the flag back to `true`, and every
mid-session write with a writable file appends to the existing content
instead of truncating. -/
theorem rotation_happens_once :
    (∀ latest past ld pd, (initState latest past ld pd).shouldCreateNewFile = true) ∧
    (∀ st : LoggerState, ∀ header message t env,
      st.shouldCreateNewFile = true →
      (LogToFile st header message t env).shouldCreateNewFile = false ∧
      (env.openOk = true →
        (LogToFile st header message t env).latestLog =
          some (bannerLines t ++ [header ++ " - " ++ message]))) ∧
    (∀ st : LoggerState, ∀ ops, st.shouldCreateNewFile = false →
      (run st ops).shouldCreateNewFile = false) ∧
    (∀ st : LoggerState, ∀ header message t env,
      st.shouldCreateNewFile = false → env.openOk = true →
      (LogToFile st header message t env).latestLog =
        some (st.latestLog.getD [] ++ [header ++ " - " ++ message])) := by
  refine ⟨fun _ _ _ _ => rfl, ?_, ?_, ?_⟩
  · intro st header message t env hFlag
    exact ⟨logToFile_flag st header message t env,
      fun hOpen => logToFile_fresh st header message t env hFlag hOpen⟩
  · intro st ops h
    exact run_flag_false st ops h
  · intro st header message t env hAct hOpen
    exact (logToFile_active st header message t env hAct hOpen).1

/-- C6 witness: the theorem at a concrete fresh state and a concrete
trace. -/
theorem rotation_happens_once_witness :
    (LogToFile wStFresh "[10:30:0] <Info>" "m" wTm wEnvOpen).shouldCreateNewFile = false ∧
    (run wSt [Op.setDisplay 3]).shouldCreateNewFile = false :=
  ⟨(rotation_happens_once.2.1 wStFresh "[10:30:0] <Info>" "m" wTm wEnvOpen rfl).1,
   rotation_happens_once.2.2.1 wSt [Op.setDisplay 3] rfl⟩

/-- C9: the archive transition copies — it does not move — the session
file (`SaveLatestLog` leaves the session file in place); the
`update_existing` copy adds a fresh entry when no identical name
pre-exists, never adds or removes an entry when one does, and entries
under any other name are untouched; afterwards the session-file path is
reused in truncate mode for the new session. -/
theorem archive_copy_not_move (st : LoggerState) (env : Env)
    (header msg : String) (t : Tm) :
    (SaveLatestLog st env).latestLog = st.latestLog ∧
    (∀ dir src dest ct older, (∀ e ∈ dir, e.name ≠ dest) →
      copyUpdateExisting dir src dest ct older = dir ++ [⟨dest, true, ct, src⟩]) ∧
    (∀ dir src dest ct older, (∃ e ∈ dir, e.name = dest) →
      (copyUpdateExisting dir src dest ct older).map FileEntry.name =
        dir.map FileEntry.name) ∧
    (∀ dir src dest ct older, ∀ e ∈ dir, e.name ≠ dest →
      e ∈ copyUpdateExisting dir src dest ct older) ∧
    (st.shouldCreateNewFile = true → env.openOk = true →
      (LogToFile st header msg t env).latestLog =
        some (bannerLines t ++ [header ++ " - " ++ msg])) := by
  refine ⟨(saveLatestLog_fields st env).1, ?_, ?_, ?_, ?_⟩
  · intro dir src dest ct older hfr
    exact copyUpdateExisting_fresh dir src dest ct older hfr
  · intro dir src dest ct older h
    have hany : dir.any (fun e => e.name == dest) = true := by
      simp only [List.any_eq_true, beq_iff_eq]
      obtain ⟨e, he, hn⟩ := h
      exact ⟨e, he, hn⟩
    unfold copyUpdateExisting
    rw [if_pos hany]
    split
    · rw [List.map_map]
      refine List.map_congr_left ?_
      intro a _
      by_cases hb : a.name = dest
      · simp only [Function.comp_apply, hb, beq_self_eq_true, if_true]
      · simp only [Function.comp_apply, beq_iff_eq, hb, if_false]
    · rfl
  · intro dir src dest ct older e he hne
    unfold copyUpdateExisting
    split
    · split
      · refine List.mem_map.mpr ⟨e, he, ?_⟩
        simp only [beq_iff_eq, hne, if_false]
      · exact he
    · exact List.mem_append_left _ he
  · intro hFlag hOpen
    exact logToFile_fresh st header msg t env hFlag hOpen

/-- C9 witness: the theorem's truncate-reuse part at a concrete state. -/
theorem archive_copy_not_move_witness :
    (LogToFile wStFresh "[10:30:0] <Info>" "m" wTm wEnvOpen).latestLog =
      some (bannerLines wTm ++ ["[10:30:0] <Info>" ++ " - " ++ "m"]) :=
  (archive_copy_not_move wStFresh wEnvOpen "[10:30:0] <Info>" "m" wTm).2.2.2.2 rfl rfl

/-- C10: each configuration setter overwrites exactly its own variable:
the other mask, the retention limit, the rotation flag, the session file
and the archive directory are unchanged (the file paths are compile-time
constants and cannot change). -/
theorem setters_frame (st : LoggerState) (m n : Nat) :
    ((SetLevelsToDisplay st m).logLevelsToDisplay = m ∧
     (SetLevelsToDisplay st m).logLevelsToSave = st.logLevelsToSave ∧
     (SetLevelsToDisplay st m).pastLogsToKeep = st.pastLogsToKeep ∧
     (SetLevelsToDisplay st m).shouldCreateNewFile = st.shouldCreateNewFile ∧
     (SetLevelsToDisplay st m).latestLog = st.latestLog ∧
     (SetLevelsToDisplay st m).pastLogs = st.pastLogs) ∧
    ((SetLevelsToSave st m).logLevelsToSave = m ∧
     (SetLevelsToSave st m).logLevelsToDisplay = st.logLevelsToDisplay ∧
     (SetLevelsToSave st m).pastLogsToKeep = st.pastLogsToKeep ∧
     (SetLevelsToSave st m).shouldCreateNewFile = st.shouldCreateNewFile ∧
     (SetLevelsToSave st m).latestLog = st.latestLog ∧
     (SetLevelsToSave st m).pastLogs = st.pastLogs) ∧
    ((SetNumberOfFilesToSave st n).pastLogsToKeep = n ∧
     (SetNumberOfFilesToSave st n).logLevelsToDisplay = st.logLevelsToDisplay ∧
     (SetNumberOfFilesToSave st n).logLevelsToSave = st.logLevelsToSave ∧
     (SetNumberOfFilesToSave st n).shouldCreateNewFile = st.shouldCreateNewFile ∧
     (SetNumberOfFilesToSave st n).latestLog = st.latestLog ∧
     (SetNumberOfFilesToSave st n).pastLogs = st.pastLogs) :=
  ⟨⟨rfl, rfl, rfl, rfl, rfl, rfl⟩, ⟨rfl, rfl, rfl, rfl, rfl, rfl⟩,
   ⟨rfl, rfl, rfl, rfl, rfl, rfl⟩⟩

theorem step_session_shape (st : LoggerState) (op : Op)
    (hop : op.allOpen = true)
    (hst : st.shouldCreateNewFile = true ∨ goodSession st.latestLog) :
    (step st op).shouldCreateNewFile = true ∨ goodSession (step st op).latestLog := by
  cases op with
  | setDisplay m => exact hst
  | setSave m => exact hst
  | setKeep n => exact hst
  | log lv n m t env =>
    have hOpen : env.openOk = true := hop
    show (Log st lv n m t env).shouldCreateNewFile = true ∨
      goodSession (Log st lv n m t env).latestLog
    by_cases hs : Nat.land st.logLevelsToSave lv ≠ 0
    · right
      rw [log_persist_pos st lv n m t env hs]
      by_cases hFlag : st.shouldCreateNewFile = true
      · rw [logToFile_fresh _ _ _ _ _ (by rw [consolePhase_flag]; exact hFlag) hOpen]
        refine ⟨t, [formatHeader t n ++ " - " ++ m], rfl, ?_⟩
        intro r hr
        rw [List.mem_singleton] at hr
        exact ⟨t, n, m, hr⟩
      · have hFlagF : st.shouldCreateNewFile = false := by
          cases hb : st.shouldCreateNewFile
          · rfl
          · exact absurd hb hFlag
        rcases hst with h | h
        · exact absurd h hFlag
        · obtain ⟨t0, records, hlat, hrec⟩ := h
          rw [(logToFile_active _ _ _ _ _
            (by rw [consolePhase_flag]; exact hFlagF) hOpen).1]
          rw [consolePhase_latestLog, hlat]
          refine ⟨t0, records ++ [formatHeader t n ++ " - " ++ m], ?_, ?_⟩
          · rw [Option.getD_some, List.append_assoc]
          · intro r hr
            rcases List.mem_append.mp hr with h1 | h2
            · exact hrec r h1
            · rw [List.mem_singleton] at h2
              exact ⟨t, n, m, h2⟩
    · rw [log_persist_neg st lv n m t env hs]
      rcases hst with h | h
      · left
        rw [consolePhase_flag]
        exact h
      · right
        rw [consolePhase_latestLog]
        exact h

theorem run_session_shape (st : LoggerState) (ops : List Op)
    (hops : ∀ op ∈ ops, op.allOpen = true)
    (hst : st.shouldCreateNewFile = true ∨ goodSession st.latestLog) :
    (run st ops).shouldCreateNewFile = true ∨
      goodSession (run st ops).latestLog := by
  induction ops generalizing st with
  | nil => exact hst
  | cons op ops ih =>
    exact ih (step st op) (fun o ho => hops o (List.mem_cons_of_mem op ho))
      (step_session_shape st op (hops op (List.mem_cons_self op ops)) hst)

/-- C7: in any run from process start in which every file open succeeds,
once the first persisted write has happened the session file consists of
the creation banner `Created - <Y>. <M>. <D>. <h>:<m>:<s>`, a blank line,
and then one line `[h:m:s] <LevelName> - message` per record; the two
format strings evaluate as expected on a concrete time. -/
theorem session_file_format (latest : Option (List String))
    (past : List FileEntry) (ld pd : Bool) (ops : List Op)
    (hops : ∀ op ∈ ops, op.allOpen = true)
    (hDone : (run (initState latest past ld pd) ops).shouldCreateNewFile = false) :
    goodSession (run (initState latest past ld pd) ops).latestLog ∧
    bannerLine ⟨124, 0, 5, 10, 30, 0⟩ = "Created - 2024. 1. 5. 10:30:0" ∧
    formatHeader ⟨124, 0, 5, 10, 30, 0⟩ "Info" = "[10:30:0] <Info>" := by
  refine ⟨?_, by decide, by decide⟩
  rcases run_session_shape (initState latest past ld pd) ops hops (Or.inl rfl)
    with h | h
  · rw [hDone] at h
    exact absurd h (by decide)
  · exact h

/-- C7 witness: the theorem on a concrete one-call trace. -/
theorem session_file_format_witness :
    goodSession (run (initState none [] false false) wOps).latestLog ∧
    bannerLine ⟨124, 0, 5, 10, 30, 0⟩ = "Created - 2024. 1. 5. 10:30:0" ∧
    formatHeader ⟨124, 0, 5, 10, 30, 0⟩ "Info" = "[10:30:0] <Info>" :=
  session_file_format none [] false false wOps
    (by intro op hop; simp only [wOps, List.mem_singleton] at hop; rw [hop]; rfl)
    (by decide)

theorem logToFile_fresh_pastLogs (st : LoggerState) (header message : String)
    (t : Tm) (env : Env) (hFlag : st.shouldCreateNewFile = true)
    (hSome : st.latestLog.isSome = true) :
    (LogToFile st header message t env).pastLogs =
      (SaveLatestLog (bootPhase st) env).pastLogs := by
  unfold LogToFile
  dsimp only
  rw [if_pos (by rw [(bootPhase_fields st).2.2.2.1]; exact hFlag)]
  rw [(writeRecord_fields _ _ _ _).2.2.1]
  unfold freshOpen
  dsimp only
  rw [if_pos (by rw [(bootPhase_fields st).1]; exact hSome)]

theorem saveLatestLog_pastLogs_fresh (st : LoggerState) (env : Env)
    (hRead : env.readOk = true)
    (hFresh : ∀ e ∈ st.pastLogs,
      e.name ≠ pastLogsFilepath ++ formatArchiveName (firstLineOf st.latestLog)) :
    ∃ past', (SaveLatestLog st env).pastLogs =
      past' ++ [⟨pastLogsFilepath ++ formatArchiveName (firstLineOf st.latestLog),
                 true, env.newCtime, st.latestLog.getD []⟩] := by
  have hm := missingPhase_fields st
  have he := evictPhase_fields (missingPhase st)
  have hsl : (SaveLatestLog st env).pastLogs =
      copyUpdateExisting (evictPhase (missingPhase st)).pastLogs
        ((evictPhase (missingPhase st)).latestLog.getD [])
        (pastLogsFilepath ++ formatArchiveName
          (if env.readOk then firstLineOf (evictPhase (missingPhase st)).latestLog else ""))
        env.newCtime env.destOlder := rfl
  have hElat : (evictPhase (missingPhase st)).latestLog = st.latestLog := by
    rw [he.1, hm.1]
  have hsub : ∀ e ∈ (evictPhase (missingPhase st)).pastLogs, e ∈ st.pastLogs := by
    intro e hein
    rw [← hm.2.1]
    revert hein
    unfold evictPhase
    split
    · split
      · exact fun h => List.mem_of_mem_eraseP h
      · exact fun h => h
    · exact fun h => h
  rw [hsl, hElat, hRead, if_pos rfl]
  exact ⟨(evictPhase (missingPhase st)).pastLogs,
    copyUpdateExisting_fresh _ _ _ _ _ (fun e he' => hFresh e (hsub e he'))⟩

/-- C1: when the previous session file's first line is the banner
`Created - 2024. 1. 5. 10:30:0`, the first persisted write of a fresh
process archives it under exactly
`./logs/past_logs/log_2024.1.5.10-30-0.txt` (10-character label stripped,
whitespace removed, colons replaced by hyphens, wrapped as
`log_<result>.txt`), the archived copy holds exactly the old session's
lines — so archiving completes before any new line is written — and the
new session file then holds only the new banner and the new record. -/
theorem archive_name_derivation (st : LoggerState) (L : Nat)
    (name msg : String) (t : Tm) (env : Env) (rest : List String)
    (hFlag : st.shouldCreateNewFile = true)
    (hLatest : st.latestLog = some ("Created - 2024. 1. 5. 10:30:0" :: rest))
    (hRead : env.readOk = true)
    (hSave : Nat.land st.logLevelsToSave L ≠ 0)
    (hFresh : ∀ e ∈ st.pastLogs,
      e.name ≠ "./logs/past_logs/log_2024.1.5.10-30-0.txt") :
    pastLogsFilepath ++ formatArchiveName "Created - 2024. 1. 5. 10:30:0" =
      "./logs/past_logs/log_2024.1.5.10-30-0.txt" ∧
    (∃ past', (Log st L name msg t env).pastLogs =
      past' ++ [⟨"./logs/past_logs/log_2024.1.5.10-30-0.txt", true, env.newCtime,
                 "Created - 2024. 1. 5. 10:30:0" :: rest⟩]) ∧
    (env.openOk = true →
      (Log st L name msg t env).latestLog =
        some (bannerLines t ++ [formatHeader t name ++ " - " ++ msg])) := by
  have hdest : pastLogsFilepath ++
      formatArchiveName "Created - 2024. 1. 5. 10:30:0" =
      "./logs/past_logs/log_2024.1.5.10-30-0.txt" := by decide
  refine ⟨hdest, ?_, ?_⟩
  · rw [log_persist_pos st L name msg t env hSave]
    have hb := bootPhase_fields (consolePhase st L (formatHeader t name) msg)
    have hBlat : (bootPhase (consolePhase st L (formatHeader t name) msg)).latestLog =
        some ("Created - 2024. 1. 5. 10:30:0" :: rest) := by
      rw [hb.1, consolePhase_latestLog, hLatest]
    rw [logToFile_fresh_pastLogs _ _ _ _ _
      (by rw [consolePhase_flag]; exact hFlag)
      (by rw [consolePhase_latestLog, hLatest]; rfl)]
    obtain ⟨past', hp⟩ :=
      saveLatestLog_pastLogs_fresh (bootPhase (consolePhase st L (formatHeader t name) msg))
        env hRead
        (by
          intro e he'
          rw [hBlat, show firstLineOf (some ("Created - 2024. 1. 5. 10:30:0" :: rest)) =
            "Created - 2024. 1. 5. 10:30:0" from rfl, hdest]
          rw [hb.2.1, consolePhase_pastLogs] at he'
          exact hFresh e he')
    rw [hBlat] at hp
    rw [show firstLineOf (some ("Created - 2024. 1. 5. 10:30:0" :: rest)) =
      "Created - 2024. 1. 5. 10:30:0" from rfl, hdest] at hp
    exact ⟨past', hp⟩
  · intro hOpen
    rw [log_persist_pos st L name msg t env hSave]
    exact logToFile_fresh _ _ _ _ _ (by rw [consolePhase_flag]; exact hFlag) hOpen

/-- C1 witness: the theorem at a concrete fresh state. -/
theorem archive_name_derivation_witness :
    (pastLogsFilepath ++ formatArchiveName "Created - 2024. 1. 5. 10:30:0" =
      "./logs/past_logs/log_2024.1.5.10-30-0.txt") ∧
    (∃ past', (Log wStFresh 1 "Trace" "m" wTm wEnvOpen).pastLogs =
      past' ++ [⟨"./logs/past_logs/log_2024.1.5.10-30-0.txt", true, wEnvOpen.newCtime,
                 "Created - 2024. 1. 5. 10:30:0" :: [""]⟩]) ∧
    (wEnvOpen.openOk = true →
      (Log wStFresh 1 "Trace" "m" wTm wEnvOpen).latestLog =
        some (bannerLines wTm ++ [formatHeader wTm "Trace" ++ " - " ++ "m"])) :=
  archive_name_derivation wStFresh 1 "Trace" "m" wTm wEnvOpen [""] rfl rfl rfl
    (by decide) (by intro e he; exact absurd he (List.not_mem_nil e))

theorem getOldestLogGo_cons (oldest : Option FileEntry) (f : FileEntry)
    (rest : List FileEntry) :
    GetOldestLogGo oldest (f :: rest) =
      if GetFileCreationTime oldest > GetFileCreationTime (some f)
          ∨ GetFileCreationTime oldest = 0 then
        GetOldestLogGo (some f) rest
      else GetOldestLogGo oldest rest := rfl

theorem getOldestLogGo_some (l : List FileEntry) (a : FileEntry) :
    ∃ f, GetOldestLogGo (some a) l = some f := by
  induction l generalizing a with
  | nil => exact ⟨a, rfl⟩
  | cons g rest ih =>
    rw [getOldestLogGo_cons]
    split
    · exact ih g
    · exact ih a

theorem getOldestLogGo_mem (l : List FileEntry) :
    ∀ (acc : Option FileEntry) (f : FileEntry),
      GetOldestLogGo acc l = some f → acc = some f ∨ f ∈ l := by
  induction l with
  | nil => exact fun acc f h => Or.inl h
  | cons g rest ih =>
    intro acc f h
    rw [getOldestLogGo_cons] at h
    split at h
    · rcases ih (some g) f h with h1 | h2
      · exact Or.inr (List.mem_cons.mpr (Or.inl (Option.some.inj h1).symm))
      · exact Or.inr (List.mem_cons.mpr (Or.inr h2))
    · rcases ih acc f h with h1 | h2
      · exact Or.inl h1
      · exact Or.inr (List.mem_cons.mpr (Or.inr h2))

theorem getOldestLog_cons (g : FileEntry) (rest : List FileEntry) :
    GetOldestLog (g :: rest) = GetOldestLogGo (some g) rest := by
  unfold GetOldestLog
  rw [getOldestLogGo_cons,
    if_pos (Or.inr (show GetFileCreationTime none = 0 from rfl))]

theorem getOldestLog_isSome (g : FileEntry) (rest : List FileEntry) :
    ∃ f, GetOldestLog (g :: rest) = some f := by
  rw [getOldestLog_cons]
  exact getOldestLogGo_some rest g

theorem getOldestLog_mem (dir : List FileEntry) (f : FileEntry)
    (h : GetOldestLog dir = some f) : f ∈ dir := by
  rcases getOldestLogGo_mem dir none f h with h1 | h2
  · exact absurd h1 (by simp)
  · exact h2

theorem getOldestLogGo_min (l : List FileEntry) :
    ∀ (a f : FileEntry), a.ctime ≠ 0 → (∀ e ∈ l, e.ctime ≠ 0) →
      GetOldestLogGo (some a) l = some f →
      (f = a ∨ f ∈ l) ∧ f.ctime ≤ a.ctime ∧ ∀ e ∈ l, f.ctime ≤ e.ctime := by
  induction l with
  | nil =>
    intro a f ha hl h
    obtain rfl := Option.some.inj h
    exact ⟨Or.inl rfl, Nat.le_refl _, fun e he => absurd he (List.not_mem_nil e)⟩
  | cons g rest ih =>
    intro a f ha hl h
    have hg : g.ctime ≠ 0 := hl g (List.mem_cons_self g rest)
    have hrest : ∀ e ∈ rest, e.ctime ≠ 0 :=
      fun e he => hl e (List.mem_cons_of_mem g he)
    rw [getOldestLogGo_cons] at h
    split at h
    case isTrue hcond =>
      have hag : g.ctime < a.ctime := by
        rcases hcond with hgt | hz0
        · exact hgt
        · exact absurd hz0 ha
      obtain ⟨hmem, hle, hall⟩ := ih g f hg hrest h
      refine ⟨?_, Nat.le_trans hle (Nat.le_of_lt hag), ?_⟩
      · rcases hmem with rfl | hm
        · exact Or.inr (List.mem_cons_self _ _)
        · exact Or.inr (List.mem_cons_of_mem g hm)
      · intro e he
        rcases List.mem_cons.mp he with rfl | hm
        · exact hle
        · exact hall e hm
    case isFalse hcond =>
      rw [not_or] at hcond
      obtain ⟨hmem, hle, hall⟩ := ih a f ha hrest h
      refine ⟨?_, hle, ?_⟩
      · rcases hmem with rfl | hm
        · exact Or.inl rfl
        · exact Or.inr (List.mem_cons_of_mem g hm)
      · intro e he
        rcases List.mem_cons.mp he with rfl | hm
        · exact Nat.le_trans hle (Nat.le_of_not_lt hcond.1)
        · exact hall e hm

/-- C4 counterexample: `GetOldestLog` does not treat a zero (unresolvable)
creation time as "older than everything" — with iteration order
`[zero, newer]` it selects the file with the strictly larger creation
time, and reversing the iteration order changes the selection, so the
choice is not deterministic either. -/
theorem eviction_zero_time_counterexample :
    GetOldestLog [zeroEntry, newerEntry] = some newerEntry ∧
    zeroEntry.ctime < newerEntry.ctime ∧
    GetOldestLog [newerEntry, zeroEntry] = some zeroEntry := by decide

/-- C4 (amended): when every file in the archive directory has a nonzero
(resolvable) creation time, `GetOldestLog` returns a file of the
directory with the minimal creation time; when a zero creation time
occurs, the currently selected candidate is displaced by whatever file
the iterator yields next, so the selection depends on directory
iteration order instead of being deterministic. -/
theorem eviction_min_of_resolvable (dir : List FileEntry) (f : FileEntry)
    (hz : ∀ e ∈ dir, e.ctime ≠ 0) (hf : GetOldestLog dir = some f) :
    f ∈ dir ∧ ∀ e ∈ dir, f.ctime ≤ e.ctime := by
  cases dir with
  | nil => exact absurd hf (by simp [GetOldestLog, GetOldestLogGo])
  | cons g rest =>
    rw [getOldestLog_cons] at hf
    obtain ⟨hmem, hle, hall⟩ :=
      getOldestLogGo_min rest g f (hz g (List.mem_cons_self g rest))
        (fun e he => hz e (List.mem_cons_of_mem g he)) hf
    refine ⟨?_, ?_⟩
    · rcases hmem with rfl | hm
      · exact List.mem_cons_self _ _
      · exact List.mem_cons_of_mem g hm
    · intro e he
      rcases List.mem_cons.mp he with rfl | hm
      · exact hle
      · exact hall e hm

/-- C4 witness: the amended theorem at a concrete directory. -/
theorem eviction_min_of_resolvable_witness :
    mkEntry "./logs/past_logs/x.txt" 50 ∈
      [newerEntry, mkEntry "./logs/past_logs/x.txt" 50] :=
  (eviction_min_of_resolvable [newerEntry, mkEntry "./logs/past_logs/x.txt" 50]
    (mkEntry "./logs/past_logs/x.txt" 50) (by decide) (by decide)).1

theorem countFiles_all_regular (dir : List FileEntry)
    (h : ∀ e ∈ dir, e.isRegularFile = true) : CountFiles dir = dir.length := by
  unfold CountFiles
  rw [List.filter_eq_self.mpr h]

theorem countFiles_append_regular (dir : List FileEntry) (e : FileEntry)
    (he : e.isRegularFile = true) :
    CountFiles (dir ++ [e]) = CountFiles dir + 1 := by
  unfold CountFiles
  rw [List.filter_append]
  simp [he]

theorem evictPhase_pastLogs_of_ge (st : LoggerState)
    (h : st.pastLogsToKeep ≤ CountFiles st.pastLogs) (f : FileEntry)
    (hf : GetOldestLog st.pastLogs = some f) :
    (evictPhase st).pastLogs =
      st.pastLogs.eraseP (fun e => e.name == f.name) := by
  unfold evictPhase
  rw [if_pos h, hf]

theorem evictPhase_pastLogs_of_lt (st : LoggerState)
    (h : ¬st.pastLogsToKeep ≤ CountFiles st.pastLogs) :
    (evictPhase st).pastLogs = st.pastLogs := by
  unfold evictPhase
  rw [if_neg h]

/-- C2 counterexample: the archive-directory file count can exceed the
retention limit at the moment a new archive lands — starting a transition
with 7 regular archive files and `R = 5`, only one file is evicted and
one is added, leaving 7 files, which is more than `R`. -/
theorem retention_exceeded_counterexample :
    overfullState.pastLogsToKeep = 5 ∧
    overfullState.pastLogs.all (fun e => e.isRegularFile) = true ∧
    CountFiles overfullState.pastLogs = 7 ∧
    CountFiles (SaveLatestLog overfullState wEnvOpen).pastLogs = 7 := by decide

/-- C2 (amended): whenever the archive directory holds at least `R`
regular files, exactly one file is deleted before the new archive is
added (the eviction phase lowers the count by one, and the whole
transition leaves the count unchanged — in particular a transition from
exactly 5 files with `R = 5` ends with exactly 5); consequently the
count at the moment a new archive lands never exceeds `R` provided it
did not already exceed `R` before the transition (a directory already
over the limit loses only one file and stays over). -/
theorem retention_bounded (st : LoggerState) (env : Env)
    (hreg : ∀ e ∈ st.pastLogs, e.isRegularFile = true)
    (hR : 0 < st.pastLogsToKeep)
    (hfresh : ∀ e ∈ st.pastLogs, e.name ≠
      pastLogsFilepath ++ formatArchiveName
        (if env.readOk then firstLineOf st.latestLog else "")) :
    (st.pastLogsToKeep ≤ CountFiles st.pastLogs →
      CountFiles (evictPhase st).pastLogs = CountFiles st.pastLogs - 1 ∧
      CountFiles (SaveLatestLog st env).pastLogs = CountFiles st.pastLogs) ∧
    (CountFiles st.pastLogs ≤ st.pastLogsToKeep →
      CountFiles (SaveLatestLog st env).pastLogs ≤ st.pastLogsToKeep) := by
  have hM := missingPhase_fields st
  have hlen : CountFiles st.pastLogs = st.pastLogs.length :=
    countFiles_all_regular _ hreg
  have hsl : (SaveLatestLog st env).pastLogs =
      copyUpdateExisting (evictPhase (missingPhase st)).pastLogs
        ((evictPhase (missingPhase st)).latestLog.getD [])
        (pastLogsFilepath ++ formatArchiveName
          (if env.readOk then firstLineOf (evictPhase (missingPhase st)).latestLog else ""))
        env.newCtime env.destOlder := rfl
  have hElat : (evictPhase (missingPhase st)).latestLog = st.latestLog := by
    rw [(evictPhase_fields _).1, hM.1]
  have key : st.pastLogsToKeep ≤ CountFiles st.pastLogs →
      CountFiles (evictPhase st).pastLogs = CountFiles st.pastLogs - 1 ∧
      CountFiles (SaveLatestLog st env).pastLogs = CountFiles st.pastLogs := by
    intro hge
    have hpos : 0 < st.pastLogs.length := by omega
    obtain ⟨g, rest, hd⟩ : ∃ g rest, st.pastLogs = g :: rest := by
      cases hcase : st.pastLogs with
      | nil => rw [hcase] at hpos; exact absurd hpos (by simp)
      | cons g rest => exact ⟨g, rest, rfl⟩
    obtain ⟨f, hf⟩ : ∃ f, GetOldestLog st.pastLogs = some f := by
      rw [hd]; exact getOldestLog_isSome g rest
    have hfmem : f ∈ st.pastLogs := getOldestLog_mem _ _ hf
    have hev : (evictPhase st).pastLogs =
        st.pastLogs.eraseP (fun e => e.name == f.name) :=
      evictPhase_pastLogs_of_ge st hge f hf
    have herase_reg : ∀ e ∈ st.pastLogs.eraseP (fun e => e.name == f.name),
        e.isRegularFile = true :=
      fun e he => hreg e (List.mem_of_mem_eraseP he)
    have hlen2 : (st.pastLogs.eraseP (fun e => e.name == f.name)).length =
        st.pastLogs.length - 1 :=
      List.length_eraseP_of_mem hfmem (by simp)
    have c1 : CountFiles (evictPhase st).pastLogs = CountFiles st.pastLogs - 1 := by
      rw [hev, countFiles_all_regular _ herase_reg, hlen2, hlen]
    refine ⟨c1, ?_⟩
    have hevM : (evictPhase (missingPhase st)).pastLogs =
        st.pastLogs.eraseP (fun e => e.name == f.name) := by
      have h' := evictPhase_pastLogs_of_ge (missingPhase st)
        (by rw [hM.2.2.2.2.2.2, hM.2.1]; exact hge) f (by rw [hM.2.1]; exact hf)
      rw [h', hM.2.1]
    have hfr : ∀ e ∈ st.pastLogs.eraseP (fun e => e.name == f.name),
        e.name ≠ pastLogsFilepath ++ formatArchiveName
          (if env.readOk then firstLineOf st.latestLog else "") :=
      fun e he => hfresh e (List.mem_of_mem_eraseP he)
    rw [hsl, hevM, hElat, copyUpdateExisting_fresh _ _ _ _ _ hfr,
      countFiles_append_regular _ _ rfl, countFiles_all_regular _ herase_reg,
      hlen2, hlen]
    omega
  refine ⟨key, ?_⟩
  intro hle
  by_cases hge : st.pastLogsToKeep ≤ CountFiles st.pastLogs
  · rw [(key hge).2]
    exact hle
  · have hevM : (evictPhase (missingPhase st)).pastLogs = st.pastLogs := by
      have h' := evictPhase_pastLogs_of_lt (missingPhase st)
        (by rw [hM.2.2.2.2.2.2, hM.2.1]; exact hge)
      rw [h', hM.2.1]
    rw [hsl, hevM, hElat, copyUpdateExisting_fresh _ _ _ _ _ hfresh,
      countFiles_append_regular _ _ rfl]
    omega

/-- C2 witness: the amended theorem at a concrete full archive. -/
theorem retention_bounded_witness :
    CountFiles (SaveLatestLog fullState wEnvOpen).pastLogs ≤
      fullState.pastLogsToKeep :=
  (retention_bounded fullState wEnvOpen (by decide) (by decide) (by decide)).2
    (by decide)

end PlatyLogger
